import Mathlib

/-!
Shallow embedding of the buffering core of `src/mongodb.js`
(signalk-to-mongodb-atlas): the `MongoDb` class with its `buffer`
(a JS `Map`, insertion-ordered, keyed by the point fingerprint `uid`),
the `getPoint` fingerprint hash, `send`, `housekeeping` and `flush`.

Times are modelled as integers (milliseconds since epoch); the JS `Map`
is modelled as an insertion-ordered association list with unique keys;
the transport (superagent) is a function from the batch to an optional
HTTP status, `none` standing for a thrown transport error.  The non-2xx
branch of `flush` references an undefined variable `error` in the
source, so at runtime it throws and control transfers to the
`catch`/`finally` blocks; the embedding models that branch as
terminating the batch loop, which is the source's actual behaviour.
-/

/-- 2^32, the modulus of the two 32-bit hash accumulators. -/
def U32 : Nat := 4294967296

/-- One update of a hash accumulator: `acc = (acc * 33) ^ c` under
JavaScript 32-bit coercion (`ToInt32` on both operands of `^`). -/
def hashStep (acc c : Nat) : Nat := ((acc * 33) % U32) ^^^ (c % U32)

/-- Run a hash accumulator over the character codes of the serialized
string.  The source iterates `while (i--)`, i.e. from the last
character down to the first, which is a right fold. -/
def hashAccum (seed : Nat) (codes : List Nat) : Nat :=
  codes.foldr (fun c acc => hashStep acc c) seed

/-- `point.uid = (hash1 >>> 0) * 4096 + (hash2 >>> 0)` with seeds 5381
and 52711 (src/mongodb.js lines 74-82). -/
def hashUid (codes : List Nat) : Nat :=
  hashAccum 5381 codes * 4096 + hashAccum 52711 codes

/-- A data point as buffered: `json` holds the character codes of the
serialized stamped point (the string hashed at src/mongodb.js line 73),
plus the stamped fields. -/
structure Point where
  json : List Nat
  time : Int
  expiry : Int
  uid : Nat
deriving Repr, DecidableEq

/-- A raw payload handed to `send`: the character codes of the caller's
payload fields plus an optional collection timestamp. -/
structure RawPoint where
  json : List Nat
  time : Option Int
deriving Repr, DecidableEq

/-- Character codes of the decimal rendering of an integer (45 is the
code of the minus sign), modelling how a JSON number serializes. -/
def encodeInt (i : Int) : List Nat :=
  if i < 0 then 45 :: (Nat.toDigits 10 i.natAbs).map Char.toNat
  else (Nat.toDigits 10 i.natAbs).map Char.toNat

/-- The character codes of `JSON.stringify(point)` for the stamped
point: the payload content followed by the serialized `time` and
`expiry` fields.  In the source, `time` and `expiry` are assigned onto
the point (src/mongodb.js lines 65-70) before `JSON.stringify(point)`
(line 73), so the serialized string - and hence the fingerprint -
depends on both stamped fields. -/
def serializePoint (payload : List Nat) (time expiry : Int) : List Nat :=
  payload ++ encodeInt time ++ encodeInt expiry

/-- `getPoint`: stamp the collection time (defaulting to now) and the
expiry `now + ttlMillis`, then hash the serialization of the stamped
point to obtain the fingerprint `uid`. -/
def getPoint (ttlMillis : Nat) (raw : RawPoint) (now : Int) : Point :=
  { json := serializePoint raw.json (raw.time.getD now) (now + (ttlMillis : Int))
    time := raw.time.getD now
    expiry := now + (ttlMillis : Int)
    uid := hashUid (serializePoint raw.json (raw.time.getD now) (now + (ttlMillis : Int))) }

/-- The buffer: a JS `Map` from `uid` to point, insertion-ordered. -/
abbrev Buffer := List (Nat × Point)

/-- JS `Map.set`: replace in place when the key exists, else append. -/
def bufferSet (buf : Buffer) (k : Nat) (v : Point) : Buffer :=
  if buf.any (fun e => e.1 == k) then
    buf.map (fun e => if e.1 == k then (k, v) else e)
  else buf ++ [(k, v)]

/-- JS `Map.delete`. -/
def bufferDelete (buf : Buffer) (k : Nat) : Buffer :=
  buf.filter (fun e => e.1 != k)

/-- `batch.forEach(point => this.buffer.delete(point.uid))`
(src/mongodb.js lines 188-190). -/
def removeBatch (buf : Buffer) (batch : List Point) : Buffer :=
  batch.foldl (fun b p => bufferDelete b p.uid) buf

/-- The plugin options consumed by the core. -/
structure Options where
  apiUrl : String
  apiKey : String
  apiMethod : String
  batchSize : Nat
  flushSecs : Nat
  maxBuffer : Nat
  ttlSecs : Option Nat
deriving Repr, DecidableEq

/-- The `settings` constants at the top of src/mongodb.js. -/
def settingsResponseMillis : Nat := 10000

/-- `deadlineMillis` from the `settings` object. -/
def settingsDeadlineMillis : Nat := 25000

/-- `defaultTtlMillis` from the `settings` object. -/
def settingsDefaultTtlMillis : Nat := 60000

/-- The mutable fields of the `MongoDb` class. -/
structure MState where
  buffer : Buffer
  flushExpiry : Int
  flushMillis : Nat
  ttlMillis : Nat
  flushing : Bool
deriving Repr, DecidableEq

/-- Field initializers: empty buffer, `flushExpiry = new Date()` at
construction time, `flushMillis = 0`, default TTL, not flushing. -/
def MState.init (constructedAt : Int) : MState :=
  { buffer := []
    flushExpiry := constructedAt
    flushMillis := 0
    ttlMillis := settingsDefaultTtlMillis
    flushing := false }

/-- `start(options)`: set `ttlMillis` when `ttlSecs` is provided; set
`flushMillis` and `flushExpiry` only when `flushSecs > 0`
(src/mongodb.js lines 27-45). -/
def start (s : MState) (opts : Options) (now : Int) : MState :=
  let s1 := match opts.ttlSecs with
    | some t => { s with ttlMillis := t * 1000 }
    | none => s
  if opts.flushSecs > 0 then
    { s1 with flushMillis := opts.flushSecs * 1000
              flushExpiry := now + (opts.flushSecs * 1000 : Nat) }
  else s1

/-- The guard `timeNow > this.flushExpiry` used at src/mongodb.js
lines 110 and 132 to decide whether a flush is due. -/
def flushDeadlinePassed (s : MState) (now : Int) : Bool :=
  decide (s.flushExpiry < now)

/-- Outcome of one `send` call: the new state, whether the point was
dropped with an error, and whether `this.flush()` was invoked. -/
structure SendResult where
  state : MState
  dropped : Bool
  flushRequested : Bool
deriving Repr, DecidableEq

/-- `send(point)` (src/mongodb.js lines 93-117): reject when
`buffer.size >= maxBuffer` (the throw is caught, nothing mutated),
else stamp the point, `buffer.set(uid, point)`, and request a flush
when the batch size is reached or the flush deadline has passed. -/
def send (opts : Options) (s : MState) (raw : RawPoint) (now : Int) : SendResult :=
  if s.buffer.length ≥ opts.maxBuffer then
    { state := s, dropped := true, flushRequested := false }
  else
    let pt := getPoint s.ttlMillis raw now
    let buf2 := bufferSet s.buffer pt.uid pt
    let s2 := { s with buffer := buf2 }
    { state := s2
      dropped := false
      flushRequested := decide (buf2.length ≥ opts.batchSize) || flushDeadlinePassed s2 now }

/-- A sequence of `send` calls, each with its own payload and time. -/
def sendMany (opts : Options) (s : MState) (raws : List (RawPoint × Int)) : MState :=
  raws.foldl (fun st pr => (send opts st pr.1 pr.2).state) s

/-- The eviction pass of `housekeeping` (src/mongodb.js lines 124-129):
delete every entry with `timeNow > point.expiry`. -/
def evictExpired (buf : Buffer) (now : Int) : Buffer :=
  buf.filter (fun e => !(decide (e.2.expiry < now)))

/-- Outcome of one housekeeping tick: the new state and whether
`this.flush()` was invoked by the tick. -/
structure TickResult where
  state : MState
  flushRequested : Bool
deriving Repr, DecidableEq

/-- `housekeeping` (src/mongodb.js lines 120-135): evict expired
entries, then request a flush when the deadline has passed. -/
def housekeeping (s : MState) (now : Int) : TickResult :=
  let s2 := { s with buffer := evictExpired s.buffer now }
  { state := s2, flushRequested := flushDeadlinePassed s2 now }

/-- The transport: maps the batch sent to `some status`, or `none` for
a thrown transport error (network failure, exhausted retries). -/
def Transport := List Point → Option Nat

/-- Whether the loop body completes normally for a batch: a 2xx status.
A non-2xx status enters the `else` branch, which throws (it references
an undefined variable `error`), and a transport error throws directly,
so both are failures here. -/
def batchOk (tr : Transport) (b : List Point) : Bool :=
  match tr b with
  | some st => decide (200 ≤ st) && decide (st < 300)
  | none => false

/-- The batch pulled from the live map iterator at position `idx`:
up to `batchSize` points, in insertion order, stopping early when the
iterator is exhausted (src/mongodb.js lines 159-167). -/
def chunkAt (snap : Buffer) (batchSize idx : Nat) : List Point :=
  ((snap.drop idx).take batchSize).map Prod.snd

/-- The `while (batches--)` loop of `flush` (src/mongodb.js lines
156-194).  `n` is the remaining batch count, `snap` the entry sequence
the iterator walks, `idx` the iterator position, `buf` the current
buffer, `sent` the batches submitted so far.  On a 2xx response the
sent batch is removed from the buffer and the loop continues; on a
non-2xx response or thrown error the loop is exited by the exception
with the buffer untouched by this step. -/
def flushLoop (tr : Transport) (batchSize : Nat) :
    Nat → Buffer → Nat → Buffer → List (List Point) → Buffer × List (List Point)
  | 0, _snap, _idx, buf, sent => (buf, sent)
  | n + 1, snap, idx, buf, sent =>
    let b := chunkAt snap batchSize idx
    if batchOk tr b then
      flushLoop tr batchSize n snap (idx + batchSize) (removeBatch buf b) (sent ++ [b])
    else (buf, sent ++ [b])

/-- Outcome of one `flush` call: the new state and the batches
submitted to the transport, in order. -/
structure FlushResult where
  state : MState
  sent : List (List Point)
deriving Repr, DecidableEq

/-- `batches = Math.floor(size / batchSize)`, plus one when
`new Date() > flushExpiry` (src/mongodb.js lines 149-152). -/
def numBatches (s : MState) (opts : Options) (now : Int) : Nat :=
  s.buffer.length / opts.batchSize + (if flushDeadlinePassed s now then 1 else 0)

/-- `flush` (src/mongodb.js lines 139-204): return at once when a flush
is in progress; otherwise run the batch loop, and in `finally` advance
`flushExpiry = now + flushMillis` and clear `flushing`. -/
def flush (opts : Options) (s : MState) (now : Int) (tr : Transport) : FlushResult :=
  if s.flushing then { state := s, sent := [] }
  else
    let p := flushLoop tr opts.batchSize (numBatches s opts now) s.buffer 0 s.buffer []
    { state := { s with buffer := p.1
                        flushExpiry := now + (s.flushMillis : Int)
                        flushing := false }
      sent := p.2 }

/-- The synchronous prefix of `flush` up to its first `await`: the
check of `flushing` (line 142) and the assignment `flushing = true`
(line 146), with no suspension point between them. -/
def beginFlush (s : MState) : Option MState :=
  if s.flushing then none else some { s with flushing := true }

/-- The HTTP request built for one batch (src/mongodb.js lines
171-181): `superagent.put(apiUrl)` with the JSON headers, the api-key,
`.retry(2)` and the response/deadline timeouts. -/
structure Request where
  method : String
  url : String
  contentType : String
  acceptHeader : String
  apiKeyHeader : String
  retries : Nat
  responseMillis : Nat
  deadlineMillis : Nat
  body : List Point
deriving Repr, DecidableEq

/-- Build the transport request for one batch exactly as the source
does: the method is the hardcoded `.put(...)` call. -/
def mkRequest (opts : Options) (batch : List Point) : Request :=
  { method := "PUT"
    url := opts.apiUrl
    contentType := "application/json"
    acceptHeader := "json"
    apiKeyHeader := opts.apiKey
    retries := 2
    responseMillis := settingsResponseMillis
    deadlineMillis := settingsDeadlineMillis
    body := batch }

/-- The requests issued by one flush: one per submitted batch. -/
def flushRequests (opts : Options) (r : FlushResult) : List Request :=
  r.sent.map (mkRequest opts)

/-- The sequence of batches the loop would pull from positions
`idx, idx + batchSize, ...` of the entry sequence, `n` of them. -/
def chunksFrom (bs : Nat) (snap : Buffer) : Nat → Nat → List (List Point)
  | 0, _ => []
  | n + 1, idx => chunkAt snap bs idx :: chunksFrom bs snap n (idx + bs)

/-- Concrete options used to instantiate the theorems. -/
def optsTest : Options :=
  { apiUrl := "url", apiKey := "key", apiMethod := "POST",
    batchSize := 2, flushSecs := 60, maxBuffer := 3, ttlSecs := some 1 }

/-- A transport that always answers 200. -/
def trOk : Transport := fun _ => some 200

/-- A transport that always answers 500. -/
def tr500 : Transport := fun _ => some 500

/-- A concrete buffered point with fingerprint `i`. -/
def pt (i : Nat) : Point := { json := [], time := 0, expiry := 10, uid := i }

/-- A concrete buffer of `n` points with distinct fingerprints. -/
def bufN (n : Nat) : Buffer := (List.range n).map (fun i => (i, pt i))

/-- A state whose buffer is at the `optsTest` capacity. -/
def sFull : MState :=
  { buffer := bufN 3, flushExpiry := 100, flushMillis := 60000,
    ttlMillis := 1000, flushing := false }

/-- A state with a flush already in progress. -/
def sFlushing : MState :=
  { buffer := bufN 1, flushExpiry := 100, flushMillis := 60000,
    ttlMillis := 1000, flushing := true }

/-- A state with two buffered points and no flush in progress. -/
def sTwo : MState :=
  { buffer := bufN 2, flushExpiry := 100, flushMillis := 60000,
    ttlMillis := 1000, flushing := false }

/-- A state with an empty buffer and no flush in progress. -/
def sEmpty : MState :=
  { buffer := [], flushExpiry := 100, flushMillis := 60000,
    ttlMillis := 1000, flushing := false }

/-- Options with batch size 10 for the batching scenario. -/
def opts25 : Options :=
  { apiUrl := "url", apiKey := "key", apiMethod := "POST",
    batchSize := 10, flushSecs := 60, maxBuffer := 100, ttlSecs := some 1 }

/-- A state with 25 buffered points for the batching scenario. -/
def s25 : MState :=
  { buffer := bufN 25, flushExpiry := 1000, flushMillis := 60000,
    ttlMillis := 1000, flushing := false }

/-- A concrete raw payload. -/
def rawAB : RawPoint := { json := [65, 66], time := none }

/-- A concrete raw payload with one character code. -/
def rawA : RawPoint := { json := [65], time := none }

/-- A concrete raw payload carrying an explicit collection time. -/
def rawT : RawPoint := { json := [65, 66], time := some 7 }

/-- A second raw payload with content identical to `rawT`. -/
def rawT2 : RawPoint := { json := [65, 66], time := some 7 }

/-- A point whose expiry equals the housekeeping time exactly. -/
def pEdge : Point := { json := [], time := 0, expiry := 0, uid := 7 }

/-- A point whose expiry is still in the future at time 10. -/
def pLive : Point := { json := [], time := 0, expiry := 50, uid := 8 }

/-- A state holding only the boundary point `pEdge`. -/
def sEdge : MState :=
  { buffer := [(7, pEdge)], flushExpiry := 100, flushMillis := 0,
    ttlMillis := 1000, flushing := false }

/-- A state holding one strictly expired and one live point. -/
def sMix : MState :=
  { buffer := [(7, pEdge), (8, pLive)], flushExpiry := 100, flushMillis := 0,
    ttlMillis := 1000, flushing := false }

/-- Options with the periodic flush disabled per the documentation. -/
def optsNoFlush : Options :=
  { apiUrl := "u", apiKey := "k", apiMethod := "PUT",
    batchSize := 10, flushSecs := 0, maxBuffer := 100, ttlSecs := none }

/-- Options configured for the POST method. -/
def optsPost : Options :=
  { apiUrl := "https://example.test/endpoint", apiKey := "secret",
    apiMethod := "POST", batchSize := 10, flushSecs := 60, maxBuffer := 100,
    ttlSecs := none }

/-! ## Helper lemmas -/

theorem bufferSet_length_le (buf : Buffer) (k : Nat) (v : Point) :
    (bufferSet buf k v).length ≤ buf.length + 1 := by
  unfold bufferSet
  split <;> simp

theorem send_state_length_le (opts : Options) (s : MState) (raw : RawPoint) (now : Int)
    (h : s.buffer.length ≤ opts.maxBuffer) :
    (send opts s raw now).state.buffer.length ≤ opts.maxBuffer := by
  unfold send
  split
  · simpa using h
  · rename_i hge
    push_neg at hge
    have hle := bufferSet_length_le s.buffer
      (getPoint s.ttlMillis raw now).uid (getPoint s.ttlMillis raw now)
    simp only []
    omega

theorem sendMany_length_le (opts : Options) (raws : List (RawPoint × Int)) :
    ∀ s : MState, s.buffer.length ≤ opts.maxBuffer →
      (sendMany opts s raws).buffer.length ≤ opts.maxBuffer := by
  induction raws with
  | nil => intro s h; simpa [sendMany] using h
  | cons r rs ih =>
    intro s h
    have step := send_state_length_le opts s r.1 r.2 h
    have := ih ((send opts s r.1 r.2).state) step
    simpa [sendMany, List.foldl] using this

theorem bufferDelete_mem (buf : Buffer) (k : Nat) (e : Nat × Point) :
    e ∈ bufferDelete buf k ↔ e ∈ buf ∧ e.1 ≠ k := by
  simp [bufferDelete, List.mem_filter]

theorem removeBatch_mem (batch : List Point) :
    ∀ (buf : Buffer) (e : Nat × Point),
      e ∈ removeBatch buf batch ↔ e ∈ buf ∧ ∀ p, p ∈ batch → e.1 ≠ p.uid := by
  induction batch with
  | nil => intro buf e; simp [removeBatch]
  | cons q qs ih =>
    intro buf e
    have hstep : removeBatch buf (q :: qs) = removeBatch (bufferDelete buf q.uid) qs := rfl
    rw [hstep, ih, bufferDelete_mem, List.forall_mem_cons]
    tauto

theorem flushLoop_all_ok (tr : Transport) (bs : Nat) (hok : ∀ b, batchOk tr b = true) :
    ∀ (n : Nat) (snap : Buffer) (idx : Nat) (buf : Buffer) (sent : List (List Point)),
      (flushLoop tr bs n snap idx buf sent).2 = sent ++ chunksFrom bs snap n idx := by
  intro n
  induction n with
  | zero => intro snap idx buf sent; simp [flushLoop, chunksFrom]
  | succ m ih =>
    intro snap idx buf sent
    rw [flushLoop]
    simp only [hok, if_true, chunksFrom]
    rw [ih]
    simp

theorem chunksFrom_count (bs : Nat) (snap : Buffer) :
    ∀ n idx, (chunksFrom bs snap n idx).length = n := by
  intro n
  induction n with
  | zero => intro idx; simp [chunksFrom]
  | succ m ih => intro idx; simp [chunksFrom, ih]

theorem chunkAt_length_le (snap : Buffer) (bs idx : Nat) :
    (chunkAt snap bs idx).length ≤ bs := by
  simp [chunkAt]

theorem chunksFrom_mem_length (bs : Nat) (snap : Buffer) :
    ∀ n idx b, b ∈ chunksFrom bs snap n idx → b.length ≤ bs := by
  intro n
  induction n with
  | zero => intro idx b hb; simp [chunksFrom] at hb
  | succ m ih =>
    intro idx b hb
    rw [chunksFrom, List.mem_cons] at hb
    rcases hb with hb | hb
    · rw [hb]; exact chunkAt_length_le snap bs idx
    · exact ih (idx + bs) b hb

theorem hashStep_lt (acc c : Nat) : hashStep acc c < U32 := by
  have hU : U32 = 2 ^ 32 := by norm_num [U32]
  have h1 : (acc * 33) % U32 < U32 := Nat.mod_lt _ (by norm_num [U32])
  have h2 : c % U32 < U32 := Nat.mod_lt _ (by norm_num [U32])
  unfold hashStep
  rw [hU] at h1 h2 ⊢
  exact Nat.bitwise_lt_two_pow h1 h2

theorem hashAccum_lt (codes : List Nat) (seed : Nat) (h : seed < U32) :
    hashAccum seed codes < U32 := by
  cases codes with
  | nil => simpa [hashAccum]
  | cons c cs => exact hashStep_lt (hashAccum seed cs) c

theorem bufferSet_mem_key (buf : Buffer) (k : Nat) (v : Point) :
    (bufferSet buf k v).any (fun e => e.1 == k) = true := by
  unfold bufferSet
  split
  · rename_i h
    rw [List.any_eq_true] at h ⊢
    obtain ⟨e, he, hk⟩ := h
    simp only [beq_iff_eq] at hk
    refine ⟨(k, v), ?_, by simp⟩
    rw [List.mem_map]
    exact ⟨e, he, by simp [hk]⟩
  · rw [List.any_eq_true]
    exact ⟨(k, v), by simp, by simp⟩

theorem bufferSet_length_present (buf : Buffer) (k : Nat) (v : Point)
    (h : buf.any (fun e => e.1 == k) = true) :
    (bufferSet buf k v).length = buf.length := by
  simp [bufferSet, h]

/-! ## Claim theorems -/

/-- C1: a `send` called when `buffer.size >= maxBuffer` is rejected as a
dropped-point error with the state (hence the buffer) unchanged, and
over any single `send` or any sequence of `send` calls the buffer size
never exceeds `maxBuffer`. -/
theorem send_capacity_invariant (opts : Options) (s : MState) (raw : RawPoint) (now : Int) :
    (s.buffer.length ≥ opts.maxBuffer →
      (send opts s raw now).dropped = true ∧ (send opts s raw now).state = s) ∧
    (s.buffer.length ≤ opts.maxBuffer →
      (send opts s raw now).state.buffer.length ≤ opts.maxBuffer) ∧
    (∀ raws, s.buffer.length ≤ opts.maxBuffer →
      (sendMany opts s raws).buffer.length ≤ opts.maxBuffer) := by
  refine ⟨?_, ?_, ?_⟩
  · intro h
    constructor <;> simp [send, h]
  · intro h
    exact send_state_length_le opts s raw now h
  · intro raws h
    exact sendMany_length_le opts raws s h

/-- C1 witness: at capacity 3 with 3 buffered points the call is
rejected and the state is unchanged; the sequence invariant holds. -/
theorem send_capacity_invariant_witness :
    ((send optsTest sFull rawAB 5).dropped = true ∧
      (send optsTest sFull rawAB 5).state = sFull) ∧
    (sendMany optsTest sFull [(rawAB, 5), (rawA, 6)]).buffer.length ≤ optsTest.maxBuffer :=
  ⟨(send_capacity_invariant optsTest sFull rawAB 5).1 (by decide),
   (send_capacity_invariant optsTest sFull rawAB 5).2.2 [(rawAB, 5), (rawA, 6)] (by decide)⟩

/-- C2: calling `flush` while `flushing == true` returns immediately
with the state unchanged and no transport call; and the synchronous
check-then-set prefix guarantees that of two back-to-back flush
requests issued before the first `await`, the second cannot proceed. -/
theorem flush_mutual_exclusion (opts : Options) (s : MState) (now : Int) (tr : Transport) :
    (s.flushing = true → flush opts s now tr = { state := s, sent := [] }) ∧
    (∀ s2, beginFlush s = some s2 → s2.flushing = true ∧ beginFlush s2 = none) := by
  constructor
  · intro h
    simp [flush, h]
  · intro s2 h
    unfold beginFlush at h
    split at h
    · exact absurd h (by simp)
    · cases h
      exact ⟨rfl, by simp [beginFlush]⟩

/-- C2 witness: a second flush on a state already flushing is a no-op,
and after `beginFlush` succeeds a second `beginFlush` is refused. -/
theorem flush_mutual_exclusion_witness :
    flush optsTest sFlushing 0 trOk = { state := sFlushing, sent := [] } ∧
    beginFlush { sEmpty with flushing := true } = none := by
  refine ⟨(flush_mutual_exclusion optsTest sFlushing 0 trOk).1 rfl, ?_⟩
  exact ((flush_mutual_exclusion optsTest sEmpty 0 trOk).2
    { sEmpty with flushing := true } rfl).2

/-- C3: when the transport fails on a batch (non-2xx status or thrown
error), the loop step leaves the buffer exactly as it was (so no point
of the failing batch is removed and earlier successful removals stay)
and submits no further batch; and on every exit of a real flush the
deadline is advanced to `now + flushMillis` and `flushing` is reset. -/
theorem flush_failure_stops_and_cleans (opts : Options) (s : MState) (now : Int) (tr : Transport) :
    (s.flushing = false →
      (flush opts s now tr).state.flushExpiry = now + (s.flushMillis : Int) ∧
      (flush opts s now tr).state.flushing = false) ∧
    (∀ (n : Nat) (snap : Buffer) (idx : Nat) (buf : Buffer) (sent : List (List Point)),
      batchOk tr (chunkAt snap opts.batchSize idx) = false →
      flushLoop tr opts.batchSize (n + 1) snap idx buf sent
        = (buf, sent ++ [chunkAt snap opts.batchSize idx])) := by
  constructor
  · intro h
    constructor <;> simp [flush, h]
  · intro n snap idx buf sent h
    rw [flushLoop]
    simp only [h, if_false, Bool.false_eq_true]

/-- C3 witness: a 500 on the only batch leaves both buffered points in
place, still advances the deadline, and resets the flushing flag. -/
theorem flush_failure_stops_and_cleans_witness :
    ((flush optsTest sTwo 200 tr500).state.flushExpiry = 200 + (sTwo.flushMillis : Int) ∧
      (flush optsTest sTwo 200 tr500).state.flushing = false) ∧
    flushLoop tr500 optsTest.batchSize 1 sTwo.buffer 0 sTwo.buffer []
      = (sTwo.buffer, [] ++ [chunkAt sTwo.buffer optsTest.batchSize 0]) ∧
    (flush optsTest sTwo 200 tr500).state.buffer = sTwo.buffer :=
  ⟨(flush_failure_stops_and_cleans optsTest sTwo 200 tr500).1 rfl,
   (flush_failure_stops_and_cleans optsTest sTwo 200 tr500).2 0 sTwo.buffer 0 sTwo.buffer []
     (by decide),
   by decide⟩

/-- C4: on a 2xx response the loop step removes from the buffer exactly
the points of the sent batch, keyed by fingerprint: every fingerprint
of the batch is absent afterwards, and every entry whose key is not a
fingerprint of the batch is retained. -/
theorem flush_success_removes_batch (tr : Transport) (bs n idx : Nat)
    (snap buf : Buffer) (sent : List (List Point))
    (h2xx : batchOk tr (chunkAt snap bs idx) = true) :
    flushLoop tr bs (n + 1) snap idx buf sent
      = flushLoop tr bs n snap (idx + bs)
          (removeBatch buf (chunkAt snap bs idx)) (sent ++ [chunkAt snap bs idx]) ∧
    (∀ p, p ∈ chunkAt snap bs idx →
      ∀ e, e ∈ removeBatch buf (chunkAt snap bs idx) → e.1 ≠ p.uid) ∧
    (∀ e, e ∈ buf → (∀ p, p ∈ chunkAt snap bs idx → e.1 ≠ p.uid) →
      e ∈ removeBatch buf (chunkAt snap bs idx)) := by
  refine ⟨?_, ?_, ?_⟩
  · rw [flushLoop]
    simp only [h2xx, if_true]
  · intro p hp e he
    exact ((removeBatch_mem _ _ _).1 he).2 p hp
  · intro e he hall
    exact (removeBatch_mem _ _ _).2 ⟨he, hall⟩

/-- C4 witness: a 200 for the batch of 5 points removes those entries;
all 5 fingerprints are absent (here the buffer becomes empty). -/
theorem flush_success_removes_batch_witness :
    flushLoop trOk 5 1 (bufN 5) 0 (bufN 5) []
      = flushLoop trOk 5 0 (bufN 5) (0 + 5)
          (removeBatch (bufN 5) (chunkAt (bufN 5) 5 0)) ([] ++ [chunkAt (bufN 5) 5 0]) ∧
    removeBatch (bufN 5) (chunkAt (bufN 5) 5 0) = [] :=
  ⟨(flush_success_removes_batch trOk 5 0 0 (bufN 5) (bufN 5) [] (by decide)).1,
   by decide⟩

/-- C5: with an always-successful transport a flush submits exactly
`floor(size / batchSize)` batches, plus one more exactly when
`now > flushDeadline`; the batches are the insertion-order chunks of
the buffer, each of at most `batchSize` points. -/
theorem flush_batch_count (opts : Options) (s : MState) (now : Int) (tr : Transport)
    (hfl : s.flushing = false) (hok : ∀ b, batchOk tr b = true) :
    (flush opts s now tr).sent
      = chunksFrom opts.batchSize s.buffer (numBatches s opts now) 0 ∧
    (flush opts s now tr).sent.length
      = s.buffer.length / opts.batchSize + (if s.flushExpiry < now then 1 else 0) ∧
    (∀ b, b ∈ (flush opts s now tr).sent → b.length ≤ opts.batchSize) := by
  have hsent : (flush opts s now tr).sent
      = chunksFrom opts.batchSize s.buffer (numBatches s opts now) 0 := by
    simp only [flush, hfl, Bool.false_eq_true, if_false]
    rw [flushLoop_all_ok tr opts.batchSize hok]
    simp
  refine ⟨hsent, ?_, ?_⟩
  · rw [hsent, chunksFrom_count]
    simp [numBatches, flushDeadlinePassed]
  · intro b hb
    rw [hsent] at hb
    exact chunksFrom_mem_length _ _ _ _ b hb

/-- C5 witness: `batchSize = 10`, 25 buffered points, `now` before the
deadline: exactly 2 batches, each of 10 points, and 5 points remain. -/
theorem flush_batch_count_witness :
    (flush opts25 s25 500 trOk).sent
      = chunksFrom opts25.batchSize s25.buffer (numBatches s25 opts25 500) 0 ∧
    (flush opts25 s25 500 trOk).sent.length = 2 ∧
    ((flush opts25 s25 500 trOk).sent.all (fun b => b.length == 10)) = true ∧
    (flush opts25 s25 500 trOk).state.buffer.length = 5 :=
  ⟨(flush_batch_count opts25 s25 500 trOk rfl (fun _ => rfl)).1,
   by decide, by decide, by decide⟩

/-- C6: the fingerprint is the stated function of the serialized
content of the stamped point (the fingerprint is `hashUid` of the
serialization that includes the stamped `time` and `expiry`): two
accumulators seeded 5381 and 52711, each kept below 2^32 and updated by
`acc = (acc * 33 mod 2^32) xor c`, combined as `acc1 * 4096 + acc2`;
any two points with identical serialized content get equal
fingerprints, and inserting the second replaces the buffered entry
instead of duplicating it (buffer size unchanged). -/
theorem fingerprint_deterministic_dedup (buf : Buffer) (p1 p2 : RawPoint)
    (t1 t2 : Nat) (n1 n2 : Int)
    (hser : (getPoint t1 p1 n1).json = (getPoint t2 p2 n2).json) :
    (getPoint t1 p1 n1).uid = (getPoint t2 p2 n2).uid ∧
    (∀ t p n, (getPoint t p n).uid = hashUid (getPoint t p n).json) ∧
    (∀ t p n, (getPoint t p n).json
      = serializePoint p.json (p.time.getD n) (n + (t : Int))) ∧
    (∀ codes, hashUid codes = hashAccum 5381 codes * 4096 + hashAccum 52711 codes) ∧
    (∀ seed, hashAccum seed [] = seed) ∧
    (∀ seed c cs, hashAccum seed (c :: cs) = hashStep (hashAccum seed cs) c) ∧
    (∀ acc c, hashStep acc c = ((acc * 33) % U32) ^^^ (c % U32)) ∧
    (∀ seed codes, seed < U32 → hashAccum seed codes < U32) ∧
    (bufferSet (bufferSet buf (getPoint t1 p1 n1).uid (getPoint t1 p1 n1))
        (getPoint t2 p2 n2).uid (getPoint t2 p2 n2)).length
      = (bufferSet buf (getPoint t1 p1 n1).uid (getPoint t1 p1 n1)).length := by
  have huid : (getPoint t1 p1 n1).uid = (getPoint t2 p2 n2).uid :=
    congrArg hashUid hser
  refine ⟨huid, fun _ _ _ => rfl, fun _ _ _ => rfl, fun _ => rfl, fun _ => rfl,
    fun _ _ _ => rfl, fun _ _ => rfl,
    fun seed codes h => hashAccum_lt codes seed h, ?_⟩
  rw [← huid]
  exact bufferSet_length_present _ _ _
    (bufferSet_mem_key buf (getPoint t1 p1 n1).uid (getPoint t1 p1 n1))

/-- C6 witness: two raw points with identical payload and identical
explicit collection time, stamped in the same millisecond with the same
TTL, serialize identically, get the same fingerprint, and the second
insert replaces the first without growing the buffer. -/
theorem fingerprint_deterministic_dedup_witness :
    (getPoint 1000 rawT 5).uid = (getPoint 1000 rawT2 5).uid ∧
    (bufferSet (bufferSet [] (getPoint 1000 rawT 5).uid (getPoint 1000 rawT 5))
        (getPoint 1000 rawT2 5).uid (getPoint 1000 rawT2 5)).length
      = (bufferSet [] (getPoint 1000 rawT 5).uid (getPoint 1000 rawT 5)).length :=
  ⟨(fingerprint_deterministic_dedup [] rawT rawT2 1000 1000 5 5 rfl).1,
   (fingerprint_deterministic_dedup [] rawT rawT2 1000 1000 5 5 rfl).2.2.2.2.2.2.2.2⟩

/-- C7 counterexample: the eviction guard is `now > expiry`, strict, so
a point with `expiry = now` (expiry ≤ now as the claim states) survives
the housekeeping tick, refuting "no point with expiry ≤ now remains". -/
theorem housekeeping_boundary_counterexample :
    pEdge.expiry ≤ (0 : Int) ∧
    (housekeeping sEdge 0).state.buffer = [(7, pEdge)] := by
  constructor <;> decide

/-- C7 amended: a housekeeping tick evicts exactly the points with
`expiry < now` (strictly in the past): afterwards every resident point
has `expiry ≥ now`, every point with `expiry ≥ now` (including
`expiry = now`) is retained, and every point with `expiry < now` is
gone. -/
theorem housekeeping_evicts_strictly_expired (s : MState) (now : Int) :
    (∀ e, e ∈ (housekeeping s now).state.buffer → now ≤ e.2.expiry) ∧
    (∀ e, e ∈ s.buffer → now ≤ e.2.expiry → e ∈ (housekeeping s now).state.buffer) ∧
    (∀ e, e ∈ s.buffer → e.2.expiry < now → e ∉ (housekeeping s now).state.buffer) := by
  have hmem : ∀ e : Nat × Point,
      e ∈ (housekeeping s now).state.buffer ↔ e ∈ s.buffer ∧ now ≤ e.2.expiry := by
    intro e
    simp [housekeeping, evictExpired, List.mem_filter, not_lt]
  exact ⟨fun e he => ((hmem e).1 he).2,
         fun e he h2 => (hmem e).2 ⟨he, h2⟩,
         fun e _ h2 hc => absurd ((hmem e).1 hc).2 (not_le.mpr h2)⟩

/-- C7 amended witness: at time 10 the live point (expiry 50) is
retained and the strictly expired point (expiry 0) is evicted. -/
theorem housekeeping_evicts_strictly_expired_witness :
    (8, pLive) ∈ (housekeeping sMix 10).state.buffer ∧
    (7, pEdge) ∉ (housekeeping sMix 10).state.buffer :=
  ⟨(housekeeping_evicts_strictly_expired sMix 10).2.1 (8, pLive) (by decide) (by decide),
   (housekeeping_evicts_strictly_expired sMix 10).2.2 (7, pEdge) (by decide) (by decide)⟩

/-- C8 (code bug): with `flushSecs = 0`, `start` leaves `flushExpiry`
at its construction-time value, so the deadline comparison
`now > flushExpiry` is already true one millisecond later: both the
housekeeping tick and an insert then do trigger a flush through the
deadline comparison, contradicting the documented "0 means don't
periodically flush". -/
theorem flushSecs_zero_still_triggers :
    (start (MState.init 0) optsNoFlush 0).flushMillis = 0 ∧
    (start (MState.init 0) optsNoFlush 0).flushExpiry = 0 ∧
    flushDeadlinePassed (start (MState.init 0) optsNoFlush 0) 1 = true ∧
    (housekeeping (start (MState.init 0) optsNoFlush 0) 1).flushRequested = true ∧
    (send optsNoFlush (start (MState.init 0) optsNoFlush 0) rawA 1).flushRequested = true := by
  refine ⟨rfl, rfl, rfl, rfl, ?_⟩
  decide

/-- C9 (code bug): the request for a batch is hardcoded to the PUT
method (`superagent.put`), ignoring the configured `apiMethod` (here
POST); the other request fields match the claim: the configured URL and
api-key, JSON content type, `json` accept header, 2 retries, 10 s
response bound and 25 s deadline bound. -/
theorem request_method_hardcoded_put :
    optsPost.apiMethod = "POST" ∧
    (mkRequest optsPost [pt 0]).method = "PUT" ∧
    (mkRequest optsPost [pt 0]).method ≠ optsPost.apiMethod ∧
    (mkRequest optsPost [pt 0]).url = optsPost.apiUrl ∧
    (mkRequest optsPost [pt 0]).contentType = "application/json" ∧
    (mkRequest optsPost [pt 0]).acceptHeader = "json" ∧
    (mkRequest optsPost [pt 0]).apiKeyHeader = optsPost.apiKey ∧
    (mkRequest optsPost [pt 0]).retries = 2 ∧
    (mkRequest optsPost [pt 0]).responseMillis = 10000 ∧
    (mkRequest optsPost [pt 0]).deadlineMillis = 25000 := by
  refine ⟨rfl, rfl, ?_, rfl, rfl, rfl, rfl, rfl, rfl, rfl⟩
  decide

/-- C10: a flush entered with an empty buffer after the deadline still
submits exactly one batch, and that batch is empty: the forced trailing
partial batch becomes a single request whose body is the empty array. -/
theorem flush_empty_forced_batch (opts : Options) (s : MState) (now : Int) (tr : Transport)
    (hfl : s.flushing = false) (hempty : s.buffer = []) (hdl : s.flushExpiry < now)
    (hbs : 0 < opts.batchSize) :
    (flush opts s now tr).sent = [[]] ∧
    flushRequests opts (flush opts s now tr) = [mkRequest opts []] := by
  have hnb : numBatches s opts now = 1 := by
    simp [numBatches, hempty, flushDeadlinePassed, hdl]
  have hsent : (flush opts s now tr).sent = [[]] := by
    simp only [flush, hfl, Bool.false_eq_true, if_false, hnb, hempty]
    rw [flushLoop]
    have hchunk : chunkAt [] opts.batchSize 0 = [] := by simp [chunkAt]
    simp only [hchunk]
    split
    · rw [flushLoop]
      rfl
    · rfl
  refine ⟨hsent, ?_⟩
  simp [flushRequests, hsent]

/-- C10 witness: empty buffer, deadline passed, no flush in progress:
one request is issued and its body is the empty array. -/
theorem flush_empty_forced_batch_witness :
    (flush optsTest sEmpty 200 trOk).sent = [[]] ∧
    flushRequests optsTest (flush optsTest sEmpty 200 trOk) = [mkRequest optsTest []] :=
  flush_empty_forced_batch optsTest sEmpty 200 trOk rfl rfl (by decide) (by decide)
